import Mathlib

/-!
# Verification of the `graphics` repository (PPM codec, scene compositor, shapes)

Shallow embedding of the Python sources:

* `src/ppmIO.py` — `_read_ppm` / `_write_ppm` (a minimal binary-PPM codec),
  the `Picture` class (`__init__`, `move`);
* `src/img.py` — `_draw_img` (scene compositor over PIL), the module's
  top-level name bindings;
* `src/shapes.py` — the `Ellipse` class (`_update`, the `r` property setter)
  and the module's global names.

Files are modelled as lists of byte values (`List Nat`, each entry a value
0–255); numpy `uint8` arrays are modelled by their flat byte contents plus
the shape recorded alongside, and rasters by width, height and an
`(x, y) ↦ color` accessor function.
-/

/-! ## Byte-level primitives shared by the codec -/

/-- ASCII whitespace bytes, as recognised by Python's `str.strip`,
`bytes.split` and `int` (space, tab, newline, carriage return,
vertical tab, form feed). -/
def isSpaceByte (b : Nat) : Bool :=
  b = 32 || b = 9 || b = 10 || b = 13 || b = 11 || b = 12

/-- Python `.strip()` on a byte string: drop whitespace from both ends. -/
def stripBytes (l : List Nat) : List Nat :=
  ((l.dropWhile isSpaceByte).reverse.dropWhile isSpaceByte).reverse

/-- Python file `readline()` followed by the uses the code makes of it:
returns the bytes of the current line **without** its terminating newline,
together with the remaining bytes of the stream.  (Every consumer in
`_read_ppm` — `.strip()`, `.split()`, `int(...)` — ignores the trailing
newline, so dropping it here is observationally equivalent.)  At end of
stream the line is empty. -/
def readLine : List Nat → List Nat × List Nat
  | [] => ([], [])
  | b :: bs => if b = 10 then ([], bs) else
      ((readLine bs).1.cons b, (readLine bs).2)

/-- Worker for Python `bytes.split()` (no separator argument): split on runs
of ASCII whitespace, producing no empty tokens.  `cur` is the reversed
current token. -/
def splitWsAux : List Nat → List Nat → List (List Nat)
  | [], cur => if cur = [] then [] else [cur.reverse]
  | b :: bs, cur =>
    if isSpaceByte b then
      if cur = [] then splitWsAux bs [] else cur.reverse :: splitWsAux bs []
    else splitWsAux bs (b :: cur)

/-- Python `bytes.split()` with no arguments. -/
def splitWs (l : List Nat) : List (List Nat) :=
  splitWsAux l []

/-- Digit-accumulator worker for Python `int()` applied to a byte token:
consumes decimal digit bytes, failing on anything else. -/
def parseDigitsAux : Nat → List Nat → Option Nat
  | a, [] => some a
  | a, b :: bs =>
    if 48 ≤ b ∧ b ≤ 57 then parseDigitsAux (a * 10 + (b - 48)) bs else none

/-- Nonempty all-digit byte string to `Nat` (empty input is a `ValueError`). -/
def parseDigits (l : List Nat) : Option Nat :=
  if l = [] then none else parseDigitsAux 0 l

/-- Python `int()` on a whitespace-free byte token: optional sign
(`-` = 45, `+` = 43) followed by at least one decimal digit.
`none` models the `ValueError` Python raises otherwise.
(Python's underscore digit separators are not modelled; no header the
claims mention contains them.) -/
def parseIntBytes (t : List Nat) : Option Int :=
  match t with
  | [] => none
  | b :: bs =>
    if b = 45 then (parseDigits bs).map (fun n => -(n : Int))
    else if b = 43 then (parseDigits bs).map (fun n => (n : Int))
    else (parseDigits (b :: bs)).map (fun n => (n : Int))

/-- Fuelled worker producing the decimal ASCII digits of `n` (most
significant first) in front of `acc`.  Fuel `n + 1` always suffices. -/
def natToBytesAux : Nat → Nat → List Nat → List Nat
  | 0, _, acc => acc
  | fuel + 1, n, acc =>
    if n < 10 then (48 + n) :: acc
    else natToBytesAux fuel (n / 10) ((48 + n % 10) :: acc)

/-- Decimal ASCII byte rendering of a natural number, as produced by the
Python f-string `f'{n}'`. -/
def natToBytes (n : Nat) : List Nat :=
  natToBytesAux (n + 1) n []

/-- Python list slice `l[:n]` (`n` may be negative, counting from the end). -/
def pySlice (n : Int) (l : List Nat) : List Nat :=
  if 0 ≤ n then l.take n.toNat else l.take ((l.length : Int) + n).toNat

/-- `np.product` of a shape tuple. -/
def npProduct (shape : List Int) : Int :=
  shape.foldl (fun a b => a * b) 1

/-- `ndarray.reshape((d0, d1, d2))` on a flat `uint8` buffer: succeeds exactly
when the buffer holds `d0*d1*d2` entries, returning the same flat bytes
(the shape is tracked by the caller).  `none` models the `ValueError`.
Negative target dimensions are rejected; numpy's `-1`-inference is not
modelled (no header in `_read_ppm`'s fallback path uses it in the claims). -/
def reshape3 (d0 d1 d2 : Int) (data : List Nat) : Option (List Nat) :=
  if 0 ≤ d0 ∧ 0 ≤ d1 ∧ 0 ≤ d2 ∧ (data.length : Int) = d0 * d1 * d2 then
    some data
  else none

/-! ## The PPM codec (`src/ppmIO.py`, `_read_ppm` / `_write_ppm`) -/

/-- Result of `_read_ppm`: `(mn, shape[:-1], c_max, data)` with `data` the
flat bytes of the `(shape[1], shape[0], 3)` array. -/
abbrev PpmResult := List Nat × List Int × Int × List Nat

/-- `_read_ppm` over an in-memory byte stream.  `none` models any uncaught
Python exception (`ValueError` from `int`, `IndexError` from `shape[1]`,
`ValueError` from the final reshape after truncation).  Mirrors the source:
three header lines, `shape = tuple(ints of line 2) + (3,)`, remaining bytes
reshaped to `(shape[1], shape[0], 3)` with the `except ValueError` fallback
truncating to `np.product(shape)` bytes first. -/
def read_ppm (file : List Nat) : Option PpmResult :=
  let p1 := readLine file
  let mn := stripBytes p1.1
  let p2 := readLine p1.2
  match (splitWs p2.1).mapM parseIntBytes with
  | none => none
  | some dims =>
    let shape : List Int := dims ++ [3]
    let p3 := readLine p2.2
    match parseIntBytes (stripBytes p3.1) with
    | none => none
    | some c_max =>
      let r_data := p3.2
      match shape with
      | s0 :: s1 :: _ =>
        match reshape3 s1 s0 3 r_data with
        | some data => some (mn, dims, c_max, data)
        | none =>
          match reshape3 s1 s0 3 (pySlice (npProduct shape) r_data) with
          | some data => some (mn, dims, c_max, data)
          | none => none
      | _ => none

/-- `_write_ppm` to an in-memory byte stream: the header
`f'{mn}\n{shape[0]} {shape[1]}\n{c_max}\n'`, the raw buffer, and one
trailing newline. -/
def write_ppm (mn : List Nat) (shape : Nat × Nat) (c_max : Nat)
    (data : List Nat) : List Nat :=
  mn ++ 10 :: (natToBytes shape.1 ++ 32 ::
    (natToBytes shape.2 ++ 10 :: (natToBytes c_max ++ 10 :: (data ++ [10]))))

/-! ## Rasters and the scene compositor (`src/img.py`, `_draw_img`) -/

/-- An RGB triple. -/
abbrev Color := Nat × Nat × Nat

/-- The Python value supplied as a `Picture`'s anchor: the code passes either
a tuple (the default `(0, 0)`) or a list of two coordinates.  The distinction
matters because tuple entries cannot be assigned in place. -/
inductive Anchor where
  | tup (x y : Int)
  | lst (x y : Int)
deriving DecidableEq

/-- The coordinates an anchor denotes, tuple or list alike. -/
def anchorCoords : Anchor → Int × Int
  | .tup x y => (x, y)
  | .lst x y => (x, y)

/-- Python exceptions the modelled fragments can raise. -/
inductive PyErr where
  | nameError
  | typeError
deriving DecidableEq

/-- `ppmIO.Picture`: magic number, `(width, height)` shape, max color,
the `(height, width, 3)` pixel array modelled by its `(x, y) ↦ color`
accessor (`data[y][x]`), and the anchor. -/
structure Picture where
  mn : List Nat
  shape : Int × Int
  c_max : Int
  px : Nat → Nat → Color
  anchor : Anchor

/-- Default `size` argument of `Picture.__init__`. -/
def defaultSize : Int × Int := (0, 0)

/-- Default `anchor` argument of `Picture.__init__`: the tuple `(0, 0)`. -/
def defaultAnchor : Anchor := Anchor.tup 0 0

/-- The solid-color branch of `Picture.__init__` (`src` an RGB triple):
`mn = 'P6'`, `shape = size`, `c_max = 255`, every pixel of the
`size[1] × size[0]` array equal to `src`, anchor as supplied. -/
def Picture.initSolid (src : Color) (size : Int × Int) (anchor : Anchor) :
    Picture :=
  { mn := [80, 54], shape := size, c_max := 255,
    px := fun _ _ => src, anchor := anchor }

/-- `Picture.move`: executes `self.anchor[0] += dx` then
`self.anchor[1] += dy`.  On a tuple anchor the first statement raises
`TypeError` (tuples do not support item assignment) before any mutation;
on a list anchor both updates succeed.  Returns the picture after the call
together with the exception, if any. -/
def Picture.move (p : Picture) (dx dy : Int) : Picture × Option PyErr :=
  match p.anchor with
  | .tup _ _ => (p, some PyErr.typeError)
  | .lst x y => ({ p with anchor := .lst (x + dx) (y + dy) }, none)

/-- A raster image (`PIL.Image` of mode `RGB`): fixed width and height and
an `(x, y) ↦ color` pixel accessor.  Drawing mutates pixels in place and
never changes the size, so operations only replace `px`. -/
structure Raster where
  width : Nat
  height : Nat
  px : Nat → Nat → Color

/-- `Image.new('RGB', (width, height), bg_color)`. -/
def newRGB (width height : Nat) (bg : Color) : Raster :=
  { width := width, height := height, px := fun _ _ => bg }

/-- Serialize a raster row-major as raw RGB bytes (what "byte-identical"
compares). -/
def rasterBytes (im : Raster) : List Nat :=
  (List.range im.height).flatMap fun y =>
    (List.range im.width).flatMap fun x =>
      [(im.px x y).1, (im.px x y).2.1, (im.px x y).2.2]

/-- An argument passed to a PIL `ImageDraw` primitive (the entries of a
shape's `draw()` list after the method name). -/
inductive PyArg where
  | pt (p : Int × Int)
  | pts (l : List (Int × Int))
  | color (c : Color)
  | num (n : Int)
  | str (s : String)
  | noneVal

/-- The call a vector shape's `draw()` list describes: the `ImageDraw`
method name and its arguments. -/
structure DrawCall where
  method : String
  args : List PyArg

/-- One element of the `shapes` list handed to `_draw_img`: either a
`ppmIO.Picture` or a vector shape (dispatched by its `draw()` list). -/
inductive Drawable where
  | pic (p : Picture)
  | shape (c : DrawCall)

/-- Does canvas pixel `(x, y)` fall inside the region covered by pasting
picture `p` at its anchor? -/
def inPicRegion (p : Picture) (x y : Nat) : Bool :=
  decide ((anchorCoords p.anchor).1 ≤ (x : Int) ∧
    (x : Int) < (anchorCoords p.anchor).1 + p.shape.1 ∧
    (anchorCoords p.anchor).2 ≤ (y : Int) ∧
    (y : Int) < (anchorCoords p.anchor).2 + p.shape.2)

/-- The index into `p`'s pixel array that canvas pixel `(x, y)` reads when
inside the pasted region. -/
def picIndex (p : Picture) (x y : Nat) : Nat × Nat :=
  (((x : Int) - (anchorCoords p.anchor).1).toNat,
   ((y : Int) - (anchorCoords p.anchor).2).toNat)

/-- `im.paste(Image.fromarray(s.data), s.anchor)`: pixels inside the pasted
region take the picture's data; every other pixel keeps its value.  PIL
clips the source to the canvas, so no write occurs outside the raster and
the raster's size is unchanged. -/
def paste (im : Raster) (p : Picture) : Raster :=
  { im with px := fun x y =>
      if inPicRegion p x y then p.px (picIndex p x y).1 (picIndex p x y).2
      else im.px x y }

/-- One iteration of `_draw_img`'s loop body: a `ppm.Picture` is pasted at
its anchor, any other shape is handed to the `ImageDraw` primitive named in
its `draw()` list.  The primitive (`rasterize`) draws in place: it yields
the new pixel contents of the same-size raster. -/
def applyDrawable (rasterize : DrawCall → Raster → (Nat → Nat → Color))
    (im : Raster) : Drawable → Raster
  | .pic p => paste im p
  | .shape c => { im with px := rasterize c im }

/-- `_draw_img(width, height, shapes, bg_color)`: a fresh background canvas,
then each drawable painted in list order. -/
def draw_img (rasterize : DrawCall → Raster → (Nat → Nat → Color))
    (width height : Nat) (shapes : List Drawable) (bg : Color) : Raster :=
  shapes.foldl (applyDrawable rasterize) (newRGB width height bg)

/-- Pixel accessor of a raster (PIL `Image.getpixel`). -/
def getPx (im : Raster) (x y : Nat) : Color :=
  im.px x y

/-! ## Module-level name bindings (`src/img.py`, `src/ppmIO.py`) -/

/-- The distinct objects bound by top-level `def`/`class`/`import`
statements of `img.py` and by the method definitions of
`ppmIO.Picture`. -/
inductive PyBinding where
  | importedName
  | viewFn
  | drawFn
  | drawSeqFn
  | saveSingleFrame
  | saveSeqFn
  | openImgFn
  | showImgFn
  | saveImgFn
  | drawImgFn
  | playerClass
  | gameClass
  | exampleGameFn
  | pictureInitMethod
  | pictureSaveMethod
  | pictureGetPxMethod
  | pictureSetPxMethod
  | pictureMoveMethod
deriving DecidableEq

/-- The top-level bindings of `img.py` in source order (imports, then the
definitions).  A Python module executes these sequentially; a later
definition of the same name would shadow an earlier one. -/
def imgModuleBindings : List (String × PyBinding) :=
  [("Tk", .importedName), ("Label", .importedName), ("Button", .importedName),
   ("Image", .importedName), ("ImageTk", .importedName),
   ("ImageSequence", .importedName), ("ImageDraw", .importedName),
   ("ppm", .importedName),
   ("view", .viewFn),
   ("draw", .drawFn),
   ("draw_seq", .drawSeqFn),
   ("save", .saveSingleFrame),
   ("save_seq", .saveSeqFn),
   ("_open_img", .openImgFn),
   ("_show_img", .showImgFn),
   ("_save_img", .saveImgFn),
   ("_draw_img", .drawImgFn),
   ("Player", .playerClass),
   ("Game", .gameClass),
   ("example_game", .exampleGameFn)]

/-- The method bindings of class `ppmIO.Picture`, in source order — a
namespace separate from any module's top level. -/
def pictureClassBindings : List (String × PyBinding) :=
  [("__init__", .pictureInitMethod),
   ("save", .pictureSaveMethod),
   ("get_px", .pictureGetPxMethod),
   ("set_px", .pictureSetPxMethod),
   ("move", .pictureMoveMethod)]

/-- What a name denotes after the whole module has executed: the value of
its **last** binding (sequential definitions shadow earlier ones). -/
def lookupBinding (env : List (String × PyBinding)) (n : String) :
    Option PyBinding :=
  List.lookup n env.reverse

/-! ## The `Ellipse` class (`src/shapes.py`) -/

/-- Instance state of `shapes.Ellipse`: the `_PieSlice` fields (`_xy`,
`_start`, `_end`, `_fill`, `_outline`, `_width`) plus `_c` and `_r`.  Colors
are optional RGB triples, coordinates integers. -/
structure Ellipse where
  xy : List (Int × Int)
  start_ : Int
  end_ : Int
  fill : Option Color
  outline : Option Color
  width : Int
  c : Int × Int
  r : Int × Int
deriving DecidableEq

/-- `Ellipse.__init__(c, r, start, end, fill, outline, width)`: the
`_PieSlice` constructor with bounding box
`[(c[0]-r[0], c[1]-r[1]), (c[0]+r[0], c[1]+r[1])]`, then `_c`, `_r` set. -/
def Ellipse.init (c r : Int × Int) (start_ end_ : Int)
    (fill outline : Option Color) (width : Int) : Ellipse :=
  { xy := [(c.1 - r.1, c.2 - r.2), (c.1 + r.1, c.2 + r.2)],
    start_ := start_, end_ := end_, fill := fill, outline := outline,
    width := width, c := c, r := r }

/-- `Ellipse._update`: recompute `self.xy` from `self.c` and `self.r`. -/
def Ellipse.update (e : Ellipse) : Ellipse :=
  { e with xy := [(e.c.1 - e.r.1, e.c.2 - e.r.2),
                  (e.c.1 + e.r.1, e.c.2 + e.r.2)] }

/-- A Python value occurring in the name-resolution environment of the
`r`-setter body. -/
inductive PyVal where
  | pair (p : Int × Int)
  | ellipseObj (e : Ellipse)
  | func (name : String)

/-- The global names of module `shapes.py` (its top-level `def`s and
`class`es; none of Python's builtins is named `r` either). -/
def shapesModuleGlobals : List (String × PyVal) :=
  [("_prop", .func "_prop"), ("Shape", .func "Shape"),
   ("PolyLine", .func "PolyLine"), ("Line", .func "Line"),
   ("_PieSlice", .func "_PieSlice"), ("Ellipse", .func "Ellipse"),
   ("Polygon", .func "Polygon")]

/-- The environment in which the body of the `r` property setter
(`def r(self, v)`) resolves names: its locals `self` and `v`, then the
module globals.  No scope binds the name `r`. -/
def rSetterScope (self : Ellipse) (v : Int × Int) : List (String × PyVal) :=
  [("self", .ellipseObj self), ("v", .pair v)] ++ shapesModuleGlobals

/-- The body of the `Ellipse.r` setter as written in the source:
`self._r = r` followed by `self._update()`.  Evaluating the right-hand side
resolves the name `r` in the setter's scope; an unresolved name raises
`NameError` before any assignment, leaving the instance untouched.  Returns
the instance after the call together with the exception, if any. -/
def Ellipse.setR (self : Ellipse) (v : Int × Int) :
    Ellipse × Option PyErr :=
  match List.lookup "r" (rSetterScope self v) with
  | none => (self, some PyErr.nameError)
  | some (.pair rv) => (Ellipse.update { self with r := rv }, none)
  | some _ => (self, some PyErr.typeError)

/-! ## Helper lemmas: decimal rendering and parsing -/

theorem natToBytesAux_irrel (f1 : Nat) :
    ∀ f2 n acc, n < f1 → n < f2 →
      natToBytesAux f1 n acc = natToBytesAux f2 n acc := by
  induction f1 with
  | zero => intro f2 n acc h1 _; omega
  | succ f1 ih =>
    intro f2 n acc h1 h2
    cases f2 with
    | zero => omega
    | succ f2 =>
      simp only [natToBytesAux]
      by_cases hn : n < 10
      · simp [hn]
      · simp only [hn, if_false]
        have hdiv : n / 10 < n := Nat.div_lt_self (by omega) (by omega)
        exact ih f2 (n / 10) _ (by omega) (by omega)

theorem natToBytesAux_append (fuel : Nat) :
    ∀ n acc, natToBytesAux fuel n acc = natToBytesAux fuel n [] ++ acc := by
  induction fuel with
  | zero => intro n acc; simp [natToBytesAux]
  | succ fuel ih =>
    intro n acc
    simp only [natToBytesAux]
    by_cases hn : n < 10
    · simp [hn]
    · simp only [hn, if_false]
      rw [ih (n / 10) ((48 + n % 10) :: acc), ih (n / 10) [48 + n % 10]]
      simp

theorem natToBytes_lt {n : Nat} (h : n < 10) : natToBytes n = [48 + n] := by
  simp [natToBytes, natToBytesAux, h]

theorem natToBytes_ge {n : Nat} (h : 10 ≤ n) :
    natToBytes n = natToBytes (n / 10) ++ [48 + n % 10] := by
  have hdiv : n / 10 < n := Nat.div_lt_self (by omega) (by omega)
  unfold natToBytes
  conv_lhs => rw [show n + 1 = (n : Nat) + 1 from rfl]
  simp only [natToBytesAux, Nat.not_lt.mpr h, if_false]
  rw [natToBytesAux_append, natToBytesAux_irrel n (n / 10 + 1) (n / 10) []
    (by omega) (by omega)]
  congr 1

theorem natToBytes_digits (n : Nat) :
    ∀ b ∈ natToBytes n, 48 ≤ b ∧ b ≤ 57 := by
  induction n using Nat.strong_induction_on with
  | _ n ih =>
    by_cases hn : n < 10
    · rw [natToBytes_lt hn]; intro b hb; simp at hb; omega
    · rw [natToBytes_ge (by omega)]
      intro b hb
      rcases List.mem_append.1 hb with hb | hb
      · exact ih (n / 10) (Nat.div_lt_self (by omega) (by omega)) b hb
      · simp at hb; have := Nat.mod_lt n (show 0 < 10 by omega); omega

theorem natToBytes_ne_nil (n : Nat) : natToBytes n ≠ [] := by
  by_cases hn : n < 10
  · rw [natToBytes_lt hn]; simp
  · rw [natToBytes_ge (by omega)]; simp

theorem parseDigitsAux_append (xs : List Nat) :
    ∀ ys a, parseDigitsAux a (xs ++ ys) =
      (parseDigitsAux a xs).bind (fun m => parseDigitsAux m ys) := by
  induction xs with
  | nil => intro ys a; simp [parseDigitsAux]
  | cons b bs ih =>
    intro ys a
    simp only [List.cons_append, parseDigitsAux]
    by_cases hb : 48 ≤ b ∧ b ≤ 57
    · simp [hb, ih]
    · simp [hb]

theorem parseDigitsAux_natToBytes (n : Nat) :
    ∀ a, parseDigitsAux a (natToBytes n) =
      some (a * 10 ^ (natToBytes n).length + n) := by
  induction n using Nat.strong_induction_on with
  | _ n ih =>
    intro a
    by_cases hn : n < 10
    · rw [natToBytes_lt hn]
      simp [parseDigitsAux, show 48 ≤ 48 + n ∧ 48 + n ≤ 57 by omega]
    · rw [natToBytes_ge (by omega)]
      rw [parseDigitsAux_append, ih (n / 10) (Nat.div_lt_self (by omega) (by omega)) a]
      have hm : n % 10 < 10 := Nat.mod_lt n (by omega)
      simp only [Option.some_bind, parseDigitsAux,
        show 48 ≤ 48 + n % 10 ∧ 48 + n % 10 ≤ 57 by omega, and_self, if_true,
        Nat.add_sub_cancel_left]
      rw [List.length_append, List.length_singleton, pow_succ]
      congr 1
      have hexp : (a * 10 ^ (natToBytes (n / 10)).length + n / 10) * 10 + n % 10
          = a * (10 ^ (natToBytes (n / 10)).length * 10) + (10 * (n / 10) + n % 10) := by
        ring
      rw [hexp, Nat.div_add_mod]

theorem parseDigits_natToBytes (n : Nat) :
    parseDigits (natToBytes n) = some n := by
  unfold parseDigits
  rw [if_neg (natToBytes_ne_nil n), parseDigitsAux_natToBytes]
  simp

theorem parseIntBytes_natToBytes (n : Nat) :
    parseIntBytes (natToBytes n) = some (n : Int) := by
  rcases e : natToBytes n with _ | ⟨b, bs⟩
  · exact absurd e (natToBytes_ne_nil n)
  · have hb := natToBytes_digits n b (by rw [e]; simp)
    simp only [parseIntBytes, show b ≠ 45 by omega, show b ≠ 43 by omega,
      if_false]
    rw [← e, parseDigits_natToBytes]
    rfl

theorem digit_not_space {b : Nat} (h1 : 48 ≤ b) : isSpaceByte b = false := by
  simp [isSpaceByte]; omega

/-! ## Helper lemmas: lines, stripping, splitting -/

theorem readLine_append (l : List Nat) :
    ∀ r, (∀ b ∈ l, b ≠ 10) → readLine (l ++ 10 :: r) = (l, r) := by
  induction l with
  | nil => intro r _; simp [readLine]
  | cons b bs ih =>
    intro r h
    have hb : b ≠ 10 := h b (by simp)
    simp only [List.cons_append, readLine, hb, if_false, List.append_eq]
    rw [ih r (fun x hx => h x (by simp [hx]))]

theorem readLine_nil : readLine [] = ([], []) := rfl

theorem dropWhile_space_eq_self {l : List Nat}
    (h : ∀ b ∈ l, isSpaceByte b = false) :
    l.dropWhile isSpaceByte = l := by
  cases l with
  | nil => rfl
  | cons a t => simp [List.dropWhile_cons, h a (by simp)]

theorem stripBytes_no_space {l : List Nat}
    (h : ∀ b ∈ l, isSpaceByte b = false) : stripBytes l = l := by
  unfold stripBytes
  rw [dropWhile_space_eq_self h,
    dropWhile_space_eq_self (fun b hb => h b (List.mem_reverse.1 hb)),
    List.reverse_reverse]

theorem splitWsAux_token (w : List Nat) :
    ∀ rest cur, (∀ b ∈ w, isSpaceByte b = false) →
      splitWsAux (w ++ rest) cur = splitWsAux rest (w.reverse ++ cur) := by
  induction w with
  | nil => intro rest cur _; simp
  | cons b bs ih =>
    intro rest cur h
    have hb : isSpaceByte b = false := h b (by simp)
    simp only [List.cons_append, splitWsAux, hb, Bool.false_eq_true, if_false,
      List.append_eq]
    rw [ih rest (b :: cur) (fun x hx => h x (by simp [hx]))]
    simp

theorem splitWs_two_tokens (A B : List Nat) (hA : A ≠ []) (hB : B ≠ [])
    (hAs : ∀ b ∈ A, isSpaceByte b = false)
    (hBs : ∀ b ∈ B, isSpaceByte b = false) :
    splitWs (A ++ 32 :: B) = [A, B] := by
  unfold splitWs
  rw [splitWsAux_token A (32 :: B) [] hAs, List.append_nil]
  have hAr : A.reverse ≠ [] := by simpa using hA
  simp only [splitWsAux, show isSpaceByte 32 = true from rfl, if_true, hAr,
    if_false, List.reverse_reverse]
  rw [show B = B ++ [] from (List.append_nil B).symm,
    splitWsAux_token B [] [] hBs]
  have hBr : B.reverse ≠ [] := by simpa using hB
  simp [splitWsAux, hBr]

theorem splitWs_one_token (A : List Nat) (hA : A ≠ [])
    (hAs : ∀ b ∈ A, isSpaceByte b = false) : splitWs A = [A] := by
  unfold splitWs
  rw [show A = A ++ [] from (List.append_nil A).symm,
    splitWsAux_token A [] [] hAs]
  have hAr : A.reverse ≠ [] := by simpa using hA
  simp [splitWsAux, hAr]

theorem mapM_eq_none_of_mem {α β : Type} {f : α → Option β} {l : List α}
    {t : α} (ht : t ∈ l) (hf : f t = none) : l.mapM f = none := by
  induction l with
  | nil => simp at ht
  | cons a as ih =>
    rw [List.mapM_cons]
    rcases List.mem_cons.1 ht with rfl | hmem
    · simp [hf]
    · cases ha : f a with
      | none => simp
      | some v =>
        rw [ih hmem]
        rfl

/-! ## Helper: reading back a well-formed header plus arbitrary payload -/

theorem digit_byte_ne_ten {b : Nat} (h1 : 48 ≤ b) : b ≠ 10 := by omega

theorem mapM_parseInt_two (w h : Nat) :
    List.mapM parseIntBytes [natToBytes w, natToBytes h] =
      some [(w : Int), (h : Int)] := by
  rw [List.mapM_cons, parseIntBytes_natToBytes, List.mapM_cons,
    parseIntBytes_natToBytes, List.mapM_nil]
  rfl

theorem read_ppm_stream (mn : List Nat) (w h c_max : Nat) (payload : List Nat)
    (hmn10 : ∀ b ∈ mn, b ≠ 10) (hstrip : stripBytes mn = mn) :
    read_ppm (mn ++ 10 :: (natToBytes w ++ 32 :: (natToBytes h ++ 10 ::
      (natToBytes c_max ++ 10 :: payload)))) =
    if w * h * 3 ≤ payload.length then
      some (mn, [(w : Int), (h : Int)], (c_max : Int),
        payload.take (w * h * 3))
    else none := by
  have hW := natToBytes_digits w
  have hH := natToBytes_digits h
  have hC := natToBytes_digits c_max
  have hline2 : ∀ b ∈ natToBytes w ++ 32 :: natToBytes h, b ≠ 10 := by
    intro b hb
    rcases List.mem_append.1 hb with hb | hb
    · exact digit_byte_ne_ten (hW b hb).1
    · rcases List.mem_cons.1 hb with rfl | hb
      · omega
      · exact digit_byte_ne_ten (hH b hb).1
  have hassoc : natToBytes w ++ 32 :: (natToBytes h ++ 10 ::
      (natToBytes c_max ++ 10 :: payload)) =
      (natToBytes w ++ 32 :: natToBytes h) ++ 10 ::
      (natToBytes c_max ++ 10 :: payload) := by simp
  unfold read_ppm
  rw [readLine_append mn _ hmn10]
  simp only
  rw [hassoc, readLine_append _ _ hline2]
  simp only
  rw [splitWs_two_tokens _ _ (natToBytes_ne_nil w) (natToBytes_ne_nil h)
    (fun b hb => digit_not_space (hW b hb).1)
    (fun b hb => digit_not_space (hH b hb).1)]
  rw [mapM_parseInt_two]
  rw [readLine_append _ _ (fun b hb => digit_byte_ne_ten (hC b hb).1)]
  simp only
  rw [hstrip, stripBytes_no_space (fun b hb => digit_not_space (hC b hb).1),
    parseIntBytes_natToBytes]
  simp only [List.cons_append, List.nil_append]
  have hprod : npProduct [(w : Int), (h : Int), 3] = ((w * h * 3 : Nat) : Int) := by
    simp [npProduct]
  have hslice : pySlice (((w * h * 3 : Nat) : Int)) payload =
      payload.take (w * h * 3) := by
    unfold pySlice
    rw [if_pos (by positivity), Int.toNat_natCast]
  have hcast : ∀ L : Nat, (((L : Int) = (h : Int) * w * 3) ↔ L = w * h * 3) := by
    intro L
    rw [show (h : Int) * w * 3 = ((w * h * 3 : Nat) : Int) by push_cast; ring]
    exact Nat.cast_inj
  by_cases hEq : payload.length = w * h * 3
  · rw [show reshape3 (h : Int) (w : Int) 3 payload = some payload from by
      unfold reshape3
      rw [if_pos ⟨by positivity, by positivity, by norm_num,
        (hcast payload.length).2 hEq⟩]]
    rw [if_pos (le_of_eq hEq.symm)]
    simp only [Option.some.injEq, Prod.mk.injEq, true_and]
    rw [← hEq, List.take_length]
  · rw [show reshape3 (h : Int) (w : Int) 3 payload = none from by
      unfold reshape3
      rw [if_neg]
      intro hcond
      exact hEq ((hcast payload.length).1 hcond.2.2.2)]
    rw [hprod, hslice]
    have hlen : (payload.take (w * h * 3)).length = min (w * h * 3) payload.length :=
      List.length_take _ _
    by_cases hle : w * h * 3 ≤ payload.length
    · rw [show reshape3 (h : Int) (w : Int) 3 (payload.take (w * h * 3)) =
          some (payload.take (w * h * 3)) from by
        unfold reshape3
        rw [if_pos ⟨by positivity, by positivity, by norm_num,
          (hcast _).2 (by rw [hlen]; omega)⟩]]
      rw [if_pos hle]
    · rw [show reshape3 (h : Int) (w : Int) 3 (payload.take (w * h * 3)) =
          none from by
        unfold reshape3
        rw [if_neg]
        intro hcond
        have := (hcast _).1 hcond.2.2.2
        rw [hlen] at this
        omega]
      rw [if_neg hle]

/-! ## Claims about the codec -/

/-- C1: for every raster with width ≥ 1, height ≥ 1 and arbitrary pixel
content (and a magic token free of newlines and surrounding whitespace,
as `P6` is), decoding the bytes `_write_ppm` emits — header lines, raw
buffer, one trailing newline — returns the same magic, `(width, height)`
shape, max color and pixel buffer: `_read_ppm` after `_write_ppm` is the
identity on `(mn, shape, c_max, data)`. -/
theorem c1_write_read_roundtrip (mn : List Nat) (w h c_max : Nat)
    (data : List Nat) (hmn10 : ∀ b ∈ mn, b ≠ 10)
    (hstrip : stripBytes mn = mn) (_hw : 1 ≤ w) (_hh : 1 ≤ h)
    (hlen : data.length = w * h * 3) :
    read_ppm (write_ppm mn (w, h) c_max data) =
      some (mn, [(w : Int), (h : Int)], (c_max : Int), data) := by
  simp only [write_ppm]
  rw [read_ppm_stream mn w h c_max (data ++ [10]) hmn10 hstrip]
  rw [if_pos (by simp [hlen])]
  rw [← hlen, List.take_left]

/-- Witness for C1 at a concrete 1×1 raster. -/
theorem c1_witness :
    read_ppm (write_ppm [80, 54] (1, 1) 255 [1, 2, 3]) =
      some ([80, 54], [(1 : Int), (1 : Int)], (255 : Int), [1, 2, 3]) :=
  c1_write_read_roundtrip [80, 54] 1 1 255 [1, 2, 3] (by decide) (by decide)
    (by decide) (by decide) (by decide)

/-- C2 counterexample: the claim says any length mismatch other than zero
or one extra byte is an unrecovered error, but on the header `P6\n1 1\n255\n`
with a 5-byte payload (two bytes beyond `1*1*3`) the reader succeeds,
truncating to the first 3 bytes. -/
theorem c2_counterexample :
    read_ppm ([80, 54, 10, 49, 32, 49, 10, 50, 53, 53, 10] ++
        [7, 7, 7, 9, 9]) =
      some ([80, 54], [1, 1], 255, [7, 7, 7]) ∧
    read_ppm ([80, 54, 10, 49, 32, 49, 10, 50, 53, 53, 10] ++
        [7, 7, 7, 9, 9]) ≠ none := by
  decide

/-- C2 (amended): for every well-formed header declaring width `w` and
height `h`, the reader tolerates **any** payload of at least `w*h*3` bytes
by truncating the buffer to `w*h*3` bytes (in particular the one extra
trailing newline byte); every shortfall (payload shorter than `w*h*3`) is
an unrecovered error. -/
theorem c2_payload_tolerance (mn : List Nat) (w h c_max : Nat)
    (payload : List Nat) (hmn10 : ∀ b ∈ mn, b ≠ 10)
    (hstrip : stripBytes mn = mn) :
    read_ppm (mn ++ 10 :: (natToBytes w ++ 32 :: (natToBytes h ++ 10 ::
      (natToBytes c_max ++ 10 :: payload)))) =
    if w * h * 3 ≤ payload.length then
      some (mn, [(w : Int), (h : Int)], (c_max : Int),
        payload.take (w * h * 3))
    else none :=
  read_ppm_stream mn w h c_max payload hmn10 hstrip

/-- Witness for C2 (amended) at a concrete 2-extra-byte payload. -/
theorem c2_witness :
    read_ppm ([80, 54] ++ 10 :: (natToBytes 1 ++ 32 :: (natToBytes 1 ++ 10 ::
      (natToBytes 255 ++ 10 :: [7, 7, 7, 9, 9])))) =
      some ([80, 54], [(1 : Int), (1 : Int)], (255 : Int), [7, 7, 7]) := by
  rw [c2_payload_tolerance [80, 54] 1 1 255 [7, 7, 7, 9, 9] (by decide)
    (by decide)]
  decide

/-- C4: encoding a 2×2 all-white raster with magic `P6` and max color 255
produces exactly the header bytes `P6\n2 2\n255\n` followed by 12 bytes of
`0xFF` and a single trailing newline; decoding that byte sequence returns
magic `P6`, shape `(2, 2)`, max color 255 and the original buffer. -/
theorem c4_concrete_two_by_two :
    write_ppm [80, 54] (2, 2) 255 (List.replicate 12 255) =
      [80, 54, 10, 50, 32, 50, 10, 50, 53, 53, 10] ++
        List.replicate 12 255 ++ [10] ∧
    read_ppm ([80, 54, 10, 50, 32, 50, 10, 50, 53, 53, 10] ++
        List.replicate 12 255 ++ [10]) =
      some ([80, 54], [2, 2], 255, List.replicate 12 255) := by
  decide

/-- C8: a byte stream whose dimensions line has a token `int()` cannot
parse, or whose header ends before the third line, makes `_read_ppm` fail
(an unrecovered parse error surfaced to the caller). -/
theorem c8_malformed_header (file : List Nat)
    (hbad : (∃ t ∈ splitWs (readLine (readLine file).2).1,
        parseIntBytes t = none) ∨
      (readLine (readLine file).2).2 = []) :
    read_ppm file = none := by
  simp only [read_ppm]
  rcases hbad with ⟨t, ht, hnone⟩ | hempty
  · rw [mapM_eq_none_of_mem ht hnone]
  · rw [hempty]
    cases hm : (splitWs (readLine (readLine file).2).1).mapM parseIntBytes with
    | none => rfl
    | some dims => rfl

/-- Witness for C8: the stream `P6\nx 2\n255\n` (non-integer width token). -/
theorem c8_witness :
    read_ppm [80, 54, 10, 120, 32, 50, 10, 50, 53, 53, 10] = none :=
  c8_malformed_header _ (Or.inl (by decide))

/-! ## Helper lemmas: the compositor never resizes the canvas -/

theorem applyDrawable_size (rz : DrawCall → Raster → (Nat → Nat → Color))
    (im : Raster) (s : Drawable) :
    (applyDrawable rz im s).width = im.width ∧
    (applyDrawable rz im s).height = im.height := by
  cases s <;> simp [applyDrawable, paste]

theorem foldl_applyDrawable_size (rz : DrawCall → Raster → (Nat → Nat → Color))
    (shapes : List Drawable) :
    ∀ im : Raster, ((shapes.foldl (applyDrawable rz) im).width = im.width ∧
      (shapes.foldl (applyDrawable rz) im).height = im.height) := by
  induction shapes with
  | nil => intro im; simp
  | cons s ss ih =>
    intro im
    rw [List.foldl_cons]
    rcases ih (applyDrawable rz im s) with ⟨hw, hh⟩
    rcases applyDrawable_size rz im s with ⟨hw2, hh2⟩
    exact ⟨hw.trans hw2, hh.trans hh2⟩

/-! ## Claims about the compositor -/

/-- C5: `_draw_img` is a pure function of the canvas size, background color,
drawable list and rasterization primitives — two calls with identical
inputs yield byte-identical rasters (no randomness, no timing
dependence in the model). -/
theorem c5_draw_img_deterministic
    (rasterize : DrawCall → Raster → (Nat → Nat → Color))
    (width height : Nat) (shapes : List Drawable) (bg : Color) :
    rasterBytes (draw_img rasterize width height shapes bg) =
      rasterBytes (draw_img rasterize width height shapes bg) := rfl

/-- C6: compositing `[A, B]` for two pictures whose pasted regions both
cover the canvas pixel `(x, y)` leaves B's pixel data there — later list
entries overwrite earlier ones (last-writer-wins). -/
theorem c6_last_writer_wins
    (rasterize : DrawCall → Raster → (Nat → Nat → Color))
    (w h : Nat) (bg : Color) (A B : Picture) (x y : Nat)
    (_hx : x < w) (_hy : y < h)
    (_hA : inPicRegion A x y = true) (hB : inPicRegion B x y = true) :
    getPx (draw_img rasterize w h [Drawable.pic A, Drawable.pic B] bg) x y =
      B.px (picIndex B x y).1 (picIndex B x y).2 := by
  simp [draw_img, applyDrawable, getPx, paste, hB]

/-- Witness for C6: a 2×2 block at the origin under a 2×2 block anchored at
`(1, 1)` on a 4×4 canvas; pixel `(1, 1)` lies in the overlap and shows the
second block's color. -/
theorem c6_witness :
    getPx (draw_img (fun _ im => im.px) 4 4
      [Drawable.pic (Picture.mk [80, 54] (2, 2) 255 (fun _ _ => (1, 1, 1))
        (Anchor.tup 0 0)),
       Drawable.pic (Picture.mk [80, 54] (2, 2) 255 (fun _ _ => (9, 9, 9))
        (Anchor.tup 1 1))] (0, 0, 0)) 1 1 = (9, 9, 9) := by
  have hres := c6_last_writer_wins (fun _ im => im.px) 4 4 (0, 0, 0)
    (Picture.mk [80, 54] (2, 2) 255 (fun _ _ => (1, 1, 1)) (Anchor.tup 0 0))
    (Picture.mk [80, 54] (2, 2) 255 (fun _ _ => (9, 9, 9)) (Anchor.tup 1 1))
    1 1 (by decide) (by decide) (by decide) (by decide)
  simpa using hres

/-- C7: pasting a picture clips to the canvas.  Appending a picture to any
drawable list never resizes the raster; a canvas pixel inside the pasted
region receives exactly the block's data (the in-bounds portion is copied),
and every canvas pixel outside it is unaffected by that block.  Being a
total function, the operation cannot fail. -/
theorem c7_paste_clips
    (rasterize : DrawCall → Raster → (Nat → Nat → Color))
    (w h : Nat) (bg : Color) (pre : List Drawable) (p : Picture) (x y : Nat)
    (_hx : x < w) (_hy : y < h) :
    (draw_img rasterize w h (pre ++ [Drawable.pic p]) bg).width = w ∧
    (draw_img rasterize w h (pre ++ [Drawable.pic p]) bg).height = h ∧
    (inPicRegion p x y = true →
      getPx (draw_img rasterize w h (pre ++ [Drawable.pic p]) bg) x y =
        p.px (picIndex p x y).1 (picIndex p x y).2) ∧
    (inPicRegion p x y = false →
      getPx (draw_img rasterize w h (pre ++ [Drawable.pic p]) bg) x y =
        getPx (draw_img rasterize w h pre bg) x y) := by
  have hsize := foldl_applyDrawable_size rasterize (pre ++ [Drawable.pic p])
    (newRGB w h bg)
  refine ⟨hsize.1, hsize.2, ?_, ?_⟩
  · intro hin
    simp [draw_img, List.foldl_append, applyDrawable, getPx, paste, hin]
  · intro hout
    simp [draw_img, List.foldl_append, applyDrawable, getPx, paste, hout]

/-- Witness for C7: a 2×2 block anchored at `(-1, -1)` (partly outside a
4×4 canvas); the far pixel `(3, 3)` is unaffected and keeps the
background. -/
theorem c7_witness :
    getPx (draw_img (fun _ im => im.px) 4 4
      ([] ++ [Drawable.pic (Picture.mk [80, 54] (2, 2) 255
        (fun _ _ => (5, 5, 5)) (Anchor.tup (-1) (-1)))]) (0, 0, 0)) 3 3 =
      (0, 0, 0) := by
  have hres := (c7_paste_clips (fun _ im => im.px) 4 4 (0, 0, 0) []
    (Picture.mk [80, 54] (2, 2) 255 (fun _ _ => (5, 5, 5))
      (Anchor.tup (-1) (-1))) 3 3 (by decide) (by decide)).2.2.2 (by decide)
  simpa [draw_img, getPx, newRGB] using hres

/-! ## Claims about module bindings and the shape/picture classes -/

/-- C3 counterexample: `img.py` binds the name `save` exactly once (the
single-frame version; the sequence version is bound under the distinct name
`save_seq`), so after loading, `save` does **not** denote the sequence
version — there is no duplicate definition and no shadowing. -/
theorem c3_counterexample :
    (imgModuleBindings.filter (fun p => p.1 = "save")).length = 1 ∧
    lookupBinding imgModuleBindings "save" ≠ some PyBinding.saveSeqFn := by
  decide

/-- C3 (amended): the program defines the single-frame operation under the
name `save` and the sequence operation under the distinct name `save_seq`;
no shadowing occurs, `save` denotes the single-frame version and `save_seq`
the sequence version.  (The `save` method of `ppmIO.Picture` lives in a
separate class namespace.) -/
theorem c3_save_bindings :
    lookupBinding imgModuleBindings "save" = some PyBinding.saveSingleFrame ∧
    lookupBinding imgModuleBindings "save_seq" = some PyBinding.saveSeqFn ∧
    (imgModuleBindings.filter (fun p => p.1 = "save")).length = 1 ∧
    lookupBinding pictureClassBindings "save" =
      some PyBinding.pictureSaveMethod := by
  decide

/-- C9: for every `Ellipse` and every value, assigning through the `r`
property raises `NameError` — the setter body reads the unbound name `r`
instead of its parameter `v` — and the failed assignment leaves the stored
radii `_r` and the bounding box `xy` unchanged, so the radii can never be
updated through the property. -/
theorem c9_r_setter_nameerror (e : Ellipse) (v : Int × Int) :
    Ellipse.setR e v = (e, some PyErr.nameError) ∧
    (Ellipse.setR e v).1.r = e.r ∧
    (Ellipse.setR e v).1.xy = e.xy :=
  ⟨rfl, rfl, rfl⟩

/-- C10: every `Picture` whose anchor is a tuple — in particular any picture
built with the default anchor argument `(0, 0)` — raises `TypeError` from
`move` (in-place item assignment on a tuple) with the anchor unchanged;
`move` succeeds exactly when the anchor was supplied as a mutable list,
where it offsets both coordinates. -/
theorem c10_move_tuple_typeerror (p : Picture) (dx dy : Int) :
    ((∃ x y, p.anchor = Anchor.tup x y) →
      Picture.move p dx dy = (p, some PyErr.typeError)) ∧
    (∀ x y, p.anchor = Anchor.lst x y →
      Picture.move p dx dy =
        ({ p with anchor := Anchor.lst (x + dx) (y + dy) }, none)) ∧
    defaultAnchor = Anchor.tup 0 0 ∧
    (∀ src size a, (Picture.initSolid src size a).anchor = a) := by
  refine ⟨?_, ?_, rfl, fun _ _ _ => rfl⟩
  · rintro ⟨x, y, hxy⟩
    simp [Picture.move, hxy]
  · intro x y hxy
    simp [Picture.move, hxy]

/-- Witness for C10: moving a default-anchored solid picture raises
`TypeError` and leaves it unchanged. -/
theorem c10_witness :
    Picture.move (Picture.initSolid (0, 0, 0) (2, 2) defaultAnchor) 5 7 =
      (Picture.initSolid (0, 0, 0) (2, 2) defaultAnchor,
        some PyErr.typeError) :=
  (c10_move_tuple_typeerror _ 5 7).1 ⟨0, 0, rfl⟩
